import Mathlib

/-!
Verification of the apps-ports process/port discovery tool (src/main.rs).

Strings are modelled as lists of characters (`Str`); every external command
invocation is modelled through an explicit `Env` record holding the text each
external tool would produce (`none` models a failed launch, i.e. Rust's
`Err` from `Command::output()`).  All parsing and correlation functions from
the source are translated one-to-one below.
-/

abbrev Str := List Char

/-- Rust `str::split_whitespace`: maximal runs of non-whitespace characters. -/
def splitWsAux : Str → Str → List Str
  | acc, [] => if acc.isEmpty then [] else [acc.reverse]
  | acc, c :: cs =>
    if c.isWhitespace then
      if acc.isEmpty then splitWsAux [] cs
      else acc.reverse :: splitWsAux [] cs
    else splitWsAux (c :: acc) cs

def splitWs (s : Str) : List Str := splitWsAux [] s

/-- Rust `str::split(sep)` for a single-character separator: always yields
one more part than the number of separators, so the result is nonempty. -/
def splitOnChar (sep : Char) : Str → List Str
  | [] => [[]]
  | c :: cs =>
    if c = sep then [] :: splitOnChar sep cs
    else
      match splitOnChar sep cs with
      | [] => [[c]]
      | r :: rs => (c :: r) :: rs

/-- Rust `str::trim`: strip leading and trailing whitespace. -/
def trimChars (s : Str) : Str :=
  ((s.dropWhile Char.isWhitespace).reverse.dropWhile Char.isWhitespace).reverse

/-- `leadsWith pat s` is true when `pat` occurs at the very start of `s`. -/
def leadsWith : Str → Str → Bool
  | [], _ => true
  | _ :: _, [] => false
  | p :: ps, c :: cs => p == c && leadsWith ps cs

/-- Rust `str::find(pat)`: index of the first occurrence of `pat` in `s`. -/
def findIdx (pat : Str) : Str → Option Nat
  | [] => if leadsWith pat [] then some 0 else none
  | c :: cs =>
    if leadsWith pat (c :: cs) then some 0
    else (findIdx pat cs).map (· + 1)

/-- Rust `str::rfind(c)`: index of the last occurrence of character `c`. -/
def rfindCharIdx (c : Char) : Str → Option Nat
  | [] => none
  | x :: xs =>
    match rfindCharIdx c xs with
    | some i => some (i + 1)
    | none => if x = c then some 0 else none

/-- The suffix of `s` after the first occurrence of `pat`
(`&s[pos + pat.len()..]` in the source). -/
def afterSub (pat s : Str) : Option Str :=
  (findIdx pat s).map (fun i => s.drop (i + pat.length))

/-- The part of `s` strictly before the first occurrence of character `c`
(`&s[..pos]` in the source). -/
def beforeChar (c : Char) (s : Str) : Option Str :=
  (findIdx [c] s).map (fun i => s.take i)

/-- The suffix of `s` after the last occurrence of character `c`
(`&s[pos + 1..]` in the source). -/
def afterLastChar (c : Char) (s : Str) : Option Str :=
  (rfindCharIdx c s).map (fun i => s.drop (i + 1))

/-- Rust `str::contains(pat)`. -/
def hasSub (pat s : Str) : Bool := (findIdx pat s).isSome

/-- Rust `str::parse::<u32>()`: optional leading `+`, then one or more ASCII
digits, value below `2^32`. -/
def parseU32 (s : Str) : Option Nat :=
  let digits := match s with
    | '+' :: rest => rest
    | other => other
  if digits.isEmpty then none
  else if digits.all Char.isDigit then
    let n := digits.foldl (fun acc c => acc * 10 + (c.toNat - 48)) 0
    if n < 4294967296 then some n else none
  else none

/-- Rust `u32::to_string()`. -/
def natToStr (n : Nat) : Str := (Nat.repr n).data

structure ProcessInfo where
  port : Str
  pid : Str
  process_name : Str
  command : Str
  docker_container_id : Str
  docker_image : Str
deriving DecidableEq

/-- Outputs of the external tools the program shells out to.  `none` models a
failed launch (Rust `Err`); `some` carries captured stdout, as the list of
lines for line-oriented consumers and as raw text where the source consumes
the raw text. -/
structure Env where
  ss_output : Bool → Option (List Str)
  netstat_output : Option (List Str)
  lsof_all_output : Option (List Str)
  lsof_port_output : Str → Option (List Str)
  fuser_output : Str → Option Str
  ps_cmd : Str → Option Str
  ps_comm : Str → Option Str
  docker_ps : Option (List Str)
  docker_inspect_ip : Str → Option Str
  docker_inspect_image : Str → Option Str

/-- `get_command_by_pid`: `ps -p <pid> -o cmd --no-headers`, trimmed;
"Unknown" when the command cannot be launched. -/
def get_command_by_pid (env : Env) (pid : Str) : Str :=
  match env.ps_cmd pid with
  | some out => trimChars out
  | none => "Unknown".data

/-- `get_process_name_by_pid`: `ps -p <pid> -o comm --no-headers`, trimmed. -/
def get_process_name_by_pid (env : Env) (pid : Str) : Str :=
  match env.ps_comm pid with
  | some out => trimChars out
  | none => "unknown".data

/-- `get_container_image`: `docker inspect -f ... <id>`; "unknown" when the
output is empty or the tool fails. -/
def get_container_image (env : Env) (container_id : Str) : Str :=
  match env.docker_inspect_image container_id with
  | some out =>
    let image := trimChars out
    if image.isEmpty then "unknown".data else image
  | none => "unknown".data

/-- `get_container_ip`: `docker inspect` for the container's IP; `none` when
empty or failed. -/
def get_container_ip (env : Env) (container_id : Str) : Option Str :=
  match env.docker_inspect_ip container_id with
  | some out =>
    let ip := trimChars out
    if ip.isEmpty then none else some ip
  | none => none

/-- Loop body of `find_container_by_ip`: scan `docker ps` lines, take the
first whitespace token of each as the candidate id, return the first whose
inspected IP equals the target. -/
def find_container_by_ip_lines (env : Env) (container_ip : Str) :
    List Str → Option Str
  | [] => none
  | line :: rest =>
    match (splitWs line).head? with
    | some container_id =>
      match get_container_ip env container_id with
      | some ip =>
        if ip = container_ip then some container_id
        else find_container_by_ip_lines env container_ip rest
      | none => find_container_by_ip_lines env container_ip rest
    | none => find_container_by_ip_lines env container_ip rest

def find_container_by_ip (env : Env) (container_ip : Str) : Option Str :=
  match env.docker_ps with
  | some lines => find_container_by_ip_lines env container_ip lines
  | none => none

/-- `extract_container_id_from_docker_proxy`: locate `-container-ip `, take
the text up to the next space as the IP, resolve it to a container id. -/
def extract_container_id_from_docker_proxy (env : Env) (command : Str) :
    Option Str :=
  match findIdx "-container-ip ".data command with
  | some pos =>
    let after_container_ip := command.drop (pos + 14)
    match findIdx [' '] after_container_ip with
    | some space_pos =>
      find_container_by_ip env (after_container_ip.take space_pos)
    | none => none
  | none => none

/-- `get_docker_info_from_command`: docker fields for a record; empty unless
the command mentions `docker-proxy` and correlation succeeds. -/
def get_docker_info_from_command (env : Env) (command : Str) : Str × Str :=
  if hasSub "docker-proxy".data command then
    match extract_container_id_from_docker_proxy env command with
    | some container_id => (container_id, get_container_image env container_id)
    | none => ([], [])
  else ([], [])

/-- `create_process_info`: build a record, deriving the docker fields from
the full command. -/
def create_process_info (env : Env) (port pid process_name command : Str) :
    ProcessInfo :=
  let d := get_docker_info_from_command env command
  ⟨port, pid, process_name, command, d.1, d.2⟩

/-- `parse_netstat_line`: needs ≥ 7 columns; port after the last `:` of
column 3; column 6 must not be the literal `-` and must split on `/` into
at least two parts (pid, process name). -/
def parse_netstat_line (env : Env) (line : Str) : Option ProcessInfo :=
  let parts := splitWs line
  if parts.length ≥ 7 then
    let address := parts.getD 3 []
    let port := (splitOnChar ':' address).getLastD []
    let pid_info := parts.getD 6 []
    if pid_info = "-".data then none
    else
      let pid_parts := splitOnChar '/' pid_info
      if pid_parts.length ≥ 2 then
        let pid := pid_parts.getD 0 []
        let process_name := pid_parts.getD 1 []
        let command := get_command_by_pid env pid
        some (create_process_info env port pid process_name command)
      else none
  else none

/-- `parse_lsof_line`: needs ≥ 9 columns; process name is column 0, pid is
column 1, the port is taken from column 8 after the last `:`, stripping a
trailing `(...)` annotation. -/
def parse_lsof_line (env : Env) (line : Str) : Option ProcessInfo :=
  let parts := splitWs line
  if parts.length ≥ 9 then
    let process_name := parts.getD 0 []
    let pid := parts.getD 1 []
    let address := parts.getD 8 []
    let port_part := (splitOnChar ':' address).getLastD []
    let port := (splitOnChar '(' port_part).headD []
    let command := get_command_by_pid env pid
    some (create_process_info env port pid process_name command)
  else none

/-- Loop over `fuser` output words: the first token parsing as a `u32` gives
the pid; name and command come from point lookups by pid. -/
def fuser_scan (env : Env) (port : Str) : List Str → Option ProcessInfo
  | [] => none
  | word :: rest =>
    match parseU32 word with
    | some pid =>
      some (create_process_info env port (natToStr pid)
        (get_process_name_by_pid env (natToStr pid))
        (get_command_by_pid env (natToStr pid)))
    | none => fuser_scan env port rest

/-- The `fuser <port>/tcp` leg of `find_process_by_port`. -/
def fuser_fallback (env : Env) (port : Str) : Option ProcessInfo :=
  match env.fuser_output port with
  | some out => fuser_scan env port (splitWs out)
  | none => none

/-- `find_process_by_port`: `lsof -i :<port> -P -n` first; the first line
(after the header) containing `LISTEN` is parsed and its parse result is
returned directly, even when `none`.  Only when no `LISTEN` line is yielded
does the `fuser` fallback run. -/
def find_process_by_port (env : Env) (port : Str) : Option ProcessInfo :=
  match env.lsof_port_output port with
  | some lines =>
    match (lines.drop 1).find? (fun l => hasSub "LISTEN".data l) with
    | some line => parse_lsof_line env line
    | none => fuser_fallback env port
  | none => fuser_fallback env port

/-- The `users:((\"name\",pid=NNN,fd=K))` branch of `parse_ss_line`: pid is
the text between `pid=` and the next comma, and the process name is the
first double-quoted substring of the column. -/
def ss_users_block (env : Env) (port process_info : Str) :
    Option ProcessInfo :=
  if hasSub "users:".data process_info then
    match afterSub "pid=".data process_info with
    | some pid_part =>
      match beforeChar ',' pid_part with
      | some pid =>
        match afterSub ['"'] process_info with
        | some after_quote =>
          match beforeChar '"' after_quote with
          | some process_name =>
            some (create_process_info env port pid process_name
              (get_command_by_pid env pid))
          | none => none
        | none => none
      | none => none
    | none => none
  else none

/-- `parse_ss_line`: needs ≥ 4 columns and a `:` in the local-address column
(column 3).  Embedded `users:` metadata is used when present and fully
parseable; otherwise the port lookup `find_process_by_port` is tried; and as
a last resort a degraded placeholder record is emitted. -/
def parse_ss_line (env : Env) (line : Str) : Option ProcessInfo :=
  let parts := splitWs line
  if parts.length ≥ 4 then
    match afterLastChar ':' (parts.getD 3 []) with
    | none => none
    | some port =>
      let viaUsers :=
        if parts.length ≥ 6 then ss_users_block env port (parts.getD 5 [])
        else none
      match viaUsers with
      | some r => some r
      | none =>
        match find_process_by_port env port with
        | some r => some r
        | none =>
          some (create_process_info env port "hidden".data
            "(elevated privileges required)".data
            "Run with 'sudo' to see process details".data)
  else none

/-- One `ss` attempt: parse every line after the header. -/
def ss_pass (env : Env) (lines : List Str) : List ProcessInfo :=
  (lines.drop 1).filterMap (parse_ss_line env)

/-- One iteration of the loop in `try_ss_command`: run `ss` (with or without
`--processes`), succeed when the parse yields at least one record. -/
def ss_attempt (env : Env) (withProcesses : Bool) : Option (List ProcessInfo) :=
  match env.ss_output withProcesses with
  | some lines =>
    let processes := ss_pass env lines
    if processes.isEmpty then none else some processes
  | none => none

/-- `try_ss_command`: first with `--processes`, then without. -/
def try_ss_command (env : Env) : Option (List ProcessInfo) :=
  match ss_attempt env true with
  | some ps => some ps
  | none => ss_attempt env false

/-- The records contributed by the `ss` stage of `get_processes_using_ports`
(an empty contribution when `try_ss_command` yields nothing). -/
def ss_records (env : Env) : List ProcessInfo :=
  (try_ss_command env).getD []

/-- The duplicate guard used by the netstat and lsof stages: append the
record only when no accumulated record already has the same (pid, port). -/
def dedup_push (processes : List ProcessInfo) (p : ProcessInfo) :
    List ProcessInfo :=
  if processes.any (fun q => decide (q.pid = p.pid ∧ q.port = p.port)) then
    processes
  else processes ++ [p]

/-- Fold a line source through a parser, pushing each parsed record through
the duplicate guard. -/
def push_candidates (f : Str → Option ProcessInfo)
    (acc : List ProcessInfo) (lines : List Str) : List ProcessInfo :=
  lines.foldl (fun acc l =>
    match f l with
    | some p => dedup_push acc p
    | none => acc) acc

/-- Netstat lines are considered only when they contain `LISTEN`. -/
def netstat_candidate (env : Env) (line : Str) : Option ProcessInfo :=
  if hasSub "LISTEN".data line then parse_netstat_line env line else none

def netstat_stage (env : Env) (processes : List ProcessInfo) :
    List ProcessInfo :=
  match env.netstat_output with
  | some lines => push_candidates (netstat_candidate env) processes lines
  | none => processes

def lsof_stage (env : Env) (processes : List ProcessInfo) :
    List ProcessInfo :=
  match env.lsof_all_output with
  | some lines => push_candidates (parse_lsof_line env) processes (lines.drop 1)
  | none => processes

/-- `get_processes_using_ports`: ss stage appended wholesale, then the
netstat and lsof stages with the duplicate guard. -/
def get_processes_using_ports (env : Env) : List ProcessInfo :=
  lsof_stage env (netstat_stage env (ss_records env))

/-! ## Spec-side definitions -/

def pidPortKey (p : ProcessInfo) : Str × Str := (p.pid, p.port)

/-- The spec's uniqueness invariant: no two records share both pid and port. -/
def UniqueByPidPort (l : List ProcessInfo) : Prop := (l.map pidPortKey).Nodup

instance (l : List ProcessInfo) : Decidable (UniqueByPidPort l) :=
  inferInstanceAs (Decidable ((l.map pidPortKey).Nodup))

/-- The candidate container ids scanned by the correlator: the first
whitespace token of each `docker ps` line. -/
def docker_candidates (lines : List Str) : List Str :=
  lines.filterMap (fun l => (splitWs l).head?)

/-- A well-formed `users:` column of an `ss` line, as the spec describes it:
`users:(("name",pid=NNN,fd=K))`. -/
def usersBlock (name pid fd : Str) : Str :=
  "users:((\"".data ++ name ++ "\",pid=".data ++ pid ++ ",fd=".data ++
    fd ++ "))".data

/-! ## Checked variants

The Rust parsers index slices (`&s[i..]`, `&s[..j]`, `&s[i..j]`, `parts[k]`)
with indices obtained from `find`/`rfind` plus fixed offsets; such indexing
panics when out of bounds.  The variants below model each indexing operation
as a checked operation in `Except Unit`, where `Except.error ()` stands for
a panic, and are otherwise verbatim copies of the parsers above. -/

def idxChk (l : List Str) (i : Nat) : Except Unit Str :=
  match l[i]? with
  | some x => Except.ok x
  | none => Except.error ()

def sliceFromChk (s : Str) (i : Nat) : Except Unit Str :=
  if i ≤ s.length then Except.ok (s.drop i) else Except.error ()

def sliceToChk (s : Str) (i : Nat) : Except Unit Str :=
  if i ≤ s.length then Except.ok (s.take i) else Except.error ()

def sliceBetweenChk (s : Str) (i j : Nat) : Except Unit Str :=
  if i ≤ j ∧ j ≤ s.length then Except.ok ((s.drop i).take (j - i))
  else Except.error ()

def parse_netstat_line_chk (env : Env) (line : Str) :
    Except Unit (Option ProcessInfo) :=
  let parts := splitWs line
  if parts.length ≥ 7 then
    match idxChk parts 3 with
    | Except.error e => Except.error e
    | Except.ok address =>
      let port := (splitOnChar ':' address).getLastD []
      match idxChk parts 6 with
      | Except.error e => Except.error e
      | Except.ok pid_info =>
        if pid_info = "-".data then Except.ok none
        else
          let pid_parts := splitOnChar '/' pid_info
          if pid_parts.length ≥ 2 then
            match idxChk pid_parts 0 with
            | Except.error e => Except.error e
            | Except.ok pid =>
              match idxChk pid_parts 1 with
              | Except.error e => Except.error e
              | Except.ok process_name =>
                Except.ok (some (create_process_info env port pid process_name
                  (get_command_by_pid env pid)))
          else Except.ok none
  else Except.ok none

def parse_lsof_line_chk (env : Env) (line : Str) :
    Except Unit (Option ProcessInfo) :=
  let parts := splitWs line
  if parts.length ≥ 9 then
    match idxChk parts 0 with
    | Except.error e => Except.error e
    | Except.ok process_name =>
      match idxChk parts 1 with
      | Except.error e => Except.error e
      | Except.ok pid =>
        match idxChk parts 8 with
        | Except.error e => Except.error e
        | Except.ok address =>
          let port_part := (splitOnChar ':' address).getLastD []
          let port := (splitOnChar '(' port_part).headD []
          Except.ok (some (create_process_info env port pid process_name
            (get_command_by_pid env pid)))
  else Except.ok none

def ss_users_block_chk (env : Env) (port process_info : Str) :
    Except Unit (Option ProcessInfo) :=
  if hasSub "users:".data process_info then
    match findIdx "pid=".data process_info with
    | some pid_start =>
      match sliceFromChk process_info (pid_start + 4) with
      | Except.error e => Except.error e
      | Except.ok pid_part =>
        match findIdx [','] pid_part with
        | some pid_end =>
          match sliceToChk pid_part pid_end with
          | Except.error e => Except.error e
          | Except.ok pid =>
            match findIdx ['"'] process_info with
            | some name_start =>
              match sliceFromChk process_info (name_start + 1) with
              | Except.error e => Except.error e
              | Except.ok after_quote =>
                match findIdx ['"'] after_quote with
                | some name_end =>
                  match sliceBetweenChk process_info (name_start + 1)
                      (name_start + 1 + name_end) with
                  | Except.error e => Except.error e
                  | Except.ok process_name =>
                    Except.ok (some (create_process_info env port pid
                      process_name (get_command_by_pid env pid)))
                | none => Except.ok none
            | none => Except.ok none
        | none => Except.ok none
    | none => Except.ok none
  else Except.ok none

def parse_ss_line_chk (env : Env) (line : Str) :
    Except Unit (Option ProcessInfo) :=
  let parts := splitWs line
  if parts.length ≥ 4 then
    match idxChk parts 3 with
    | Except.error e => Except.error e
    | Except.ok local_address =>
      match rfindCharIdx ':' local_address with
      | none => Except.ok none
      | some colon_pos =>
        match sliceFromChk local_address (colon_pos + 1) with
        | Except.error e => Except.error e
        | Except.ok port =>
          let viaUsers :=
            if parts.length ≥ 6 then
              match idxChk parts 5 with
              | Except.error e => Except.error e
              | Except.ok process_info => ss_users_block_chk env port process_info
            else Except.ok none
          match viaUsers with
          | Except.error e => Except.error e
          | Except.ok (some r) => Except.ok (some r)
          | Except.ok none =>
            match find_process_by_port env port with
            | some r => Except.ok (some r)
            | none =>
              Except.ok (some (create_process_info env port "hidden".data
                "(elevated privileges required)".data
                "Run with 'sudo' to see process details".data))
  else Except.ok none

def extract_container_id_chk (env : Env) (command : Str) :
    Except Unit (Option Str) :=
  match findIdx "-container-ip ".data command with
  | some pos =>
    match sliceFromChk command (pos + 14) with
    | Except.error e => Except.error e
    | Except.ok after_container_ip =>
      match findIdx [' '] after_container_ip with
      | some space_pos =>
        match sliceToChk after_container_ip space_pos with
        | Except.error e => Except.error e
        | Except.ok container_ip =>
          Except.ok (find_container_by_ip env container_ip)
      | none => Except.ok none
  | none => Except.ok none

/-! ## Basic lemmas about the string scanning primitives -/

theorem leadsWith_length :
    ∀ (pat s : Str), leadsWith pat s = true → pat.length ≤ s.length
  | [], _, _ => Nat.zero_le _
  | p :: ps, [], h => by simp [leadsWith] at h
  | p :: ps, c :: cs, h => by
    rw [leadsWith, Bool.and_eq_true] at h
    have := leadsWith_length ps cs h.2
    simpa [List.length_cons] using Nat.succ_le_succ this

theorem findIdx_bound {pat : Str} :
    ∀ {s : Str} {i : Nat}, findIdx pat s = some i → i + pat.length ≤ s.length := by
  intro s
  induction s with
  | nil =>
    intro i h
    unfold findIdx at h
    split at h
    · cases h
      simpa using leadsWith_length pat [] (by assumption)
    · cases h
  | cons c cs ih =>
    intro i h
    unfold findIdx at h
    split at h
    · cases h
      simpa using leadsWith_length pat (c :: cs) (by assumption)
    · rcases Option.map_eq_some'.mp h with ⟨j, hj, hji⟩
      have := ih hj
      subst hji
      simp only [List.length_cons]
      omega

theorem rfindCharIdx_bound {c : Char} :
    ∀ {s : Str} {i : Nat}, rfindCharIdx c s = some i → i < s.length := by
  intro s
  induction s with
  | nil => intro i h; simp [rfindCharIdx] at h
  | cons x xs ih =>
    intro i h
    unfold rfindCharIdx at h
    cases hr : rfindCharIdx c xs with
    | some j =>
      rw [hr] at h
      cases h
      have := ih hr
      simp only [List.length_cons]
      omega
    | none =>
      rw [hr] at h
      by_cases hx : x = c
      · rw [if_pos hx] at h
        cases h
        simp
      · rw [if_neg hx] at h
        cases h

/-! ## De-duplication invariants of the Discovery Engine -/

theorem dedup_push_unique {acc : List ProcessInfo} {p : ProcessInfo}
    (h : UniqueByPidPort acc) : UniqueByPidPort (dedup_push acc p) := by
  unfold dedup_push
  by_cases hc :
      acc.any (fun q => decide (q.pid = p.pid ∧ q.port = p.port)) = true
  · rw [if_pos hc]; exact h
  · rw [if_neg hc]
    unfold UniqueByPidPort at h ⊢
    rw [List.map_append, List.nodup_append]
    refine ⟨h, by simp, ?_⟩
    intro a ha hb
    simp only [List.map_cons, List.map_nil, List.mem_singleton] at hb
    rcases List.mem_map.mp ha with ⟨q, hq, hkey⟩
    apply hc
    rw [List.any_eq_true]
    refine ⟨q, hq, ?_⟩
    have hqp : pidPortKey q = pidPortKey p := hkey.trans hb
    simp only [pidPortKey, Prod.mk.injEq] at hqp
    exact decide_eq_true hqp

theorem dedup_push_grows (acc : List ProcessInfo) (p : ProcessInfo) :
    ∃ t, dedup_push acc p = acc ++ t := by
  unfold dedup_push
  by_cases hc :
      acc.any (fun q => decide (q.pid = p.pid ∧ q.port = p.port)) = true
  · exact ⟨[], by rw [if_pos hc, List.append_nil]⟩
  · exact ⟨[p], by rw [if_neg hc]⟩

theorem push_candidates_unique (f : Str → Option ProcessInfo) :
    ∀ (lines : List Str) (acc : List ProcessInfo),
      UniqueByPidPort acc → UniqueByPidPort (push_candidates f acc lines) := by
  intro lines
  induction lines with
  | nil => intro acc h; simpa [push_candidates] using h
  | cons l ls ih =>
    intro acc h
    have hstep : push_candidates f acc (l :: ls) =
        push_candidates f (match f l with
          | some p => dedup_push acc p
          | none => acc) ls := rfl
    rw [hstep]
    cases hf : f l with
    | none =>
      simp only [hf]
      exact ih acc h
    | some p =>
      simp only [hf]
      exact ih _ (dedup_push_unique h)

theorem push_candidates_grows (f : Str → Option ProcessInfo) :
    ∀ (lines : List Str) (acc : List ProcessInfo),
      ∃ t, push_candidates f acc lines = acc ++ t := by
  intro lines
  induction lines with
  | nil => intro acc; exact ⟨[], by simp [push_candidates]⟩
  | cons l ls ih =>
    intro acc
    have hstep : push_candidates f acc (l :: ls) =
        push_candidates f (match f l with
          | some p => dedup_push acc p
          | none => acc) ls := rfl
    rw [hstep]
    cases hf : f l with
    | none =>
      simp only [hf]
      exact ih acc
    | some p =>
      simp only [hf]
      obtain ⟨t0, h0⟩ := dedup_push_grows acc p
      obtain ⟨t1, h1⟩ := ih (dedup_push acc p)
      exact ⟨t0 ++ t1, by rw [h1, h0, List.append_assoc]⟩

theorem netstat_stage_unique {env : Env} {acc : List ProcessInfo}
    (h : UniqueByPidPort acc) : UniqueByPidPort (netstat_stage env acc) := by
  unfold netstat_stage
  cases env.netstat_output with
  | none => exact h
  | some lines => exact push_candidates_unique _ lines acc h

theorem lsof_stage_unique {env : Env} {acc : List ProcessInfo}
    (h : UniqueByPidPort acc) : UniqueByPidPort (lsof_stage env acc) := by
  unfold lsof_stage
  cases env.lsof_all_output with
  | none => exact h
  | some lines => exact push_candidates_unique _ (lines.drop 1) acc h

theorem netstat_stage_grows (env : Env) (acc : List ProcessInfo) :
    ∃ t, netstat_stage env acc = acc ++ t := by
  unfold netstat_stage
  cases env.netstat_output with
  | none => exact ⟨[], by simp⟩
  | some lines => exact push_candidates_grows _ lines acc

theorem lsof_stage_grows (env : Env) (acc : List ProcessInfo) :
    ∃ t, lsof_stage env acc = acc ++ t := by
  unfold lsof_stage
  cases env.lsof_all_output with
  | none => exact ⟨[], by simp⟩
  | some lines => exact push_candidates_grows _ (lines.drop 1) acc

/-! ## Concrete environments for the tests -/

def emptyEnv : Env where
  ss_output := fun _ => none
  netstat_output := none
  lsof_all_output := none
  lsof_port_output := fun _ => none
  fuser_output := fun _ => none
  ps_cmd := fun _ => none
  ps_comm := fun _ => none
  docker_ps := none
  docker_inspect_ip := fun _ => none
  docker_inspect_image := fun _ => none

/-- An ss line carrying full process metadata for pid 100 on port 8080. -/
def ssDupLine : Str :=
  "LISTEN 0 128 0.0.0.0:8080 0.0.0.0:* users:((\"node\",pid=100,fd=10))".data

/-- ss reports the same (pid, port) binding on two lines of one run. -/
def envC1 : Env :=
  { emptyEnv with
    ss_output := fun _ => some ["State".data, ssDupLine, ssDupLine],
    ps_cmd := fun _ => some "node server.js".data }

/-- ss and netstat each report the (100, 8080) binding once. -/
def envC1W : Env :=
  { emptyEnv with
    ss_output := fun b => if b then some ["State".data, ssDupLine] else none,
    netstat_output :=
      some ["tcp 0 0 0.0.0.0:8080 0.0.0.0:* LISTEN 100/node".data],
    ps_cmd := fun _ => some "node server.js".data }

/-- Claim C1 as stated is false: within one Discovery Engine run, two lines
of the ss probe that yield the same (pid, port) are both retained, because
the ss stage appends its records without the duplicate guard.  With ss
reporting pid 100 / port 8080 on two lines, the output is not unique by
(pid, port). -/
theorem C1_counterexample :
    ¬ UniqueByPidPort (get_processes_using_ports envC1) := by decide

/-- Claim C1 (amended): provided the ss stage's own records are unique by
(pid, port), the whole Discovery Engine output is unique by (pid, port);
moreover the netstat and lsof stages only ever append, so earlier records —
in particular every first-seen record — are retained unchanged and later
(pid, port) duplicates from those stages are dropped. -/
theorem get_processes_unique (env : Env)
    (h : UniqueByPidPort (ss_records env)) :
    UniqueByPidPort (get_processes_using_ports env) ∧
    ∃ t, get_processes_using_ports env = ss_records env ++ t := by
  constructor
  · exact lsof_stage_unique (netstat_stage_unique h)
  · obtain ⟨t1, h1⟩ := netstat_stage_grows env (ss_records env)
    obtain ⟨t2, h2⟩ := lsof_stage_grows env (netstat_stage env (ss_records env))
    refine ⟨t1 ++ t2, ?_⟩
    rw [get_processes_using_ports, h2, h1, List.append_assoc]

/-- Witness for the amended claim C1 at a concrete environment in which ss
and netstat both observe the (100, 8080) binding: the hypothesis holds and
the merged output is unique by (pid, port). -/
theorem get_processes_unique_witness :
    UniqueByPidPort (ss_records envC1W) ∧
    UniqueByPidPort (get_processes_using_ports envC1W) ∧
    ∃ t, get_processes_using_ports envC1W = ss_records envC1W ++ t := by
  have h : UniqueByPidPort (ss_records envC1W) := by decide
  exact ⟨h, (get_processes_unique envC1W h).1, (get_processes_unique envC1W h).2⟩

/-! ## Netstat `-` column (C6) -/

/-- Claim C6: a netstat line whose PID/name column (column 6, 0-based,
whitespace-split) is the literal `-` yields no record at all — the parser
returns not-parseable, with no degraded placeholder. -/
theorem parse_netstat_dash (env : Env) (line : Str)
    (h : (splitWs line).getD 6 [] = "-".data) :
    parse_netstat_line env line = none := by
  unfold parse_netstat_line
  by_cases h7 : (splitWs line).length ≥ 7
  · rw [if_pos h7, h, if_pos rfl]
  · rw [if_neg h7]

/-- Witness for C6: a concrete 7-column netstat line with `-` in the PID
column yields no record. -/
theorem parse_netstat_dash_witness :
    (splitWs "tcp 0 0 0.0.0.0:80 0.0.0.0:* LISTEN -".data).getD 6 [] =
      "-".data ∧
    parse_netstat_line emptyEnv "tcp 0 0 0.0.0.0:80 0.0.0.0:* LISTEN -".data =
      none :=
  ⟨by decide,
   parse_netstat_dash emptyEnv "tcp 0 0 0.0.0.0:80 0.0.0.0:* LISTEN -".data
     (by decide)⟩

/-! ## ss degraded placeholder (C3) -/

/-- Claim C3: an ss line with at least 4 columns whose local-address column
contains a `:`, carrying no usable `users:` metadata, and for which the
point lookup by port also fails, still yields a record — with pid
`hidden`, a placeholder process name, and a full command instructing the
user to re-run elevated. -/
theorem parse_ss_degraded (env : Env) (line port : Str)
    (h4 : (splitWs line).length ≥ 4)
    (hc : afterLastChar ':' ((splitWs line).getD 3 []) = some port)
    (hu : ss_users_block env port ((splitWs line).getD 5 []) = none)
    (hf : find_process_by_port env port = none) :
    ∃ r, parse_ss_line env line = some r ∧
      r.pid = "hidden".data ∧
      r.process_name = "(elevated privileges required)".data ∧
      r.command = "Run with 'sudo' to see process details".data := by
  refine ⟨create_process_info env port "hidden".data
    "(elevated privileges required)".data
    "Run with 'sudo' to see process details".data, ?_, rfl, rfl, rfl⟩
  unfold parse_ss_line
  by_cases h6 : (splitWs line).length ≥ 6
  · simp only [if_pos h4, hc, if_pos h6, hu, hf]
  · simp only [if_pos h4, hc, if_neg h6, hf]

/-- Witness for C3: a concrete privilege-restricted ss line (no `users:`
column) in an environment where lsof and fuser both fail. -/
theorem parse_ss_degraded_witness :
    ∃ r, parse_ss_line emptyEnv "LISTEN 0 128 0.0.0.0:9999 0.0.0.0:*".data =
        some r ∧
      r.pid = "hidden".data ∧
      r.process_name = "(elevated privileges required)".data ∧
      r.command = "Run with 'sudo' to see process details".data :=
  parse_ss_degraded emptyEnv "LISTEN 0 128 0.0.0.0:9999 0.0.0.0:*".data
    "9999".data (by decide) (by decide) (by decide) (by decide)

/-! ## lsof point lookup short-circuit (C9) -/

/-- Claim C9: when the port-scoped lsof output yields a LISTEN line that the
lsof parser rejects, `find_process_by_port` returns `none` from that first
LISTEN line directly — the fuser fallback is never reached. -/
theorem find_process_listen_unparseable (env : Env) (port : Str)
    (lines : List Str) (l : Str)
    (h1 : env.lsof_port_output port = some lines)
    (h2 : (lines.drop 1).find? (fun x => hasSub "LISTEN".data x) = some l)
    (h3 : parse_lsof_line env l = none) :
    find_process_by_port env port = none := by
  simp only [find_process_by_port, h1, h2, h3]

/-- Environment for the C9 witness: the port-scoped lsof output has a LISTEN
line with only 8 columns, while fuser would report pid 4242. -/
def envC9 : Env :=
  { emptyEnv with
    lsof_port_output := fun _ =>
      some ["COMMAND PID USER FD TYPE DEVICE NODE NAME".data,
            "node 1234 user IPv4 0 0t0 TCP *:3000(LISTEN)".data],
    fuser_output := fun _ => some " 4242".data,
    ps_cmd := fun _ => some "node server.js".data,
    ps_comm := fun _ => some "node".data }

/-- Witness for C9: despite fuser knowing pid 4242, the rejected LISTEN line
makes the lookup return nothing. -/
theorem find_process_listen_unparseable_witness :
    find_process_by_port envC9 "3000".data = none :=
  find_process_listen_unparseable envC9 "3000".data
    ["COMMAND PID USER FD TYPE DEVICE NODE NAME".data,
     "node 1234 user IPv4 0 0t0 TCP *:3000(LISTEN)".data]
    "node 1234 user IPv4 0 0t0 TCP *:3000(LISTEN)".data
    (by decide) (by decide) (by decide)

/-! ## Docker extraction with no trailing space (C10) -/

/-- Claim C10: when `-container-ip ` occurs but no space follows the IP
value (the IP is the final token), extraction fails and both docker fields
come back empty, even if a matching container exists. -/
theorem extract_no_trailing_space (env : Env) (command rest : Str)
    (h1 : afterSub "-container-ip ".data command = some rest)
    (h2 : beforeChar ' ' rest = none) :
    extract_container_id_from_docker_proxy env command = none ∧
    get_docker_info_from_command env command = ([], []) := by
  rcases Option.map_eq_some'.mp h1 with ⟨pos, hpos, hdrop⟩
  have hlen : ("-container-ip ".data).length = 14 := rfl
  rw [hlen] at hdrop
  have hsp : findIdx [' '] rest = none := by
    rcases hn : findIdx [' '] rest with _ | sp
    · rfl
    · exfalso
      have : beforeChar ' ' rest = some (rest.take sp) := by
        unfold beforeChar
        rw [hn, Option.map_some']
      rw [this] at h2
      cases h2
  have hext : extract_container_id_from_docker_proxy env command = none := by
    simp only [extract_container_id_from_docker_proxy, hpos, hdrop, hsp]
  refine ⟨hext, ?_⟩
  unfold get_docker_info_from_command
  by_cases hd : hasSub "docker-proxy".data command = true
  · rw [hd, if_pos rfl, hext]
  · rw [if_neg (by simpa using hd)]

/-- Environment for the C10 witness: a running container really does have
the IP named in the proxy command. -/
def envC10 : Env :=
  { emptyEnv with
    docker_ps := some ["abc123def456 web".data],
    docker_inspect_ip := fun cid =>
      if cid = "abc123def456".data then some "172.17.0.2".data else none,
    docker_inspect_image := fun _ => some "nginx:latest".data }

/-- A docker-proxy command line where the container IP is the final token. -/
def cmdC10 : Str :=
  ("/usr/bin/docker-proxy -proto tcp -host-ip 0.0.0.0 -host-port 8080 " ++
   "-container-port 8080 -container-ip 172.17.0.2").data

/-- Witness for C10 at the concrete command whose IP ends the string. -/
theorem extract_no_trailing_space_witness :
    extract_container_id_from_docker_proxy envC10 cmdC10 = none ∧
    get_docker_info_from_command envC10 cmdC10 = ([], []) :=
  extract_no_trailing_space envC10 cmdC10 "172.17.0.2".data
    (by decide) (by decide)

/-! ## lsof sample line (C4) -/

def envC4 : Env :=
  { emptyEnv with ps_cmd := fun _ => some "node /app/server.js".data }

/-- Claim C4 as stated is false: the sample line
`node 1234 user IPv4 0 0t0 TCP *:3000(LISTEN)` has only 8 whitespace
columns and `parse_lsof_line` requires at least 9, so it is rejected
instead of producing a record. -/
theorem C4_counterexample :
    parse_lsof_line envC4 "node 1234 user IPv4 0 0t0 TCP *:3000(LISTEN)".data
      = none := by decide

/-- Claim C4 (amended): with the missing FD column restored (9 columns), the
line parses to port 3000, pid 1234, process name node. -/
theorem parse_lsof_nine_col :
    (parse_lsof_line envC4
        "node 1234 user 23u IPv4 0 0t0 TCP *:3000(LISTEN)".data).map
      (fun r => (r.port, r.pid, r.process_name)) =
    some ("3000".data, "1234".data, "node".data) := by decide

/-! ## Point lookup characterization (C7) -/

theorem fuser_scan_char (env : Env) (port : Str) :
    ∀ words : List Str,
      fuser_scan env port words =
        match words.find? (fun w => (parseU32 w).isSome) with
        | some w =>
          match parseU32 w with
          | some pid =>
            some (create_process_info env port (natToStr pid)
              (get_process_name_by_pid env (natToStr pid))
              (get_command_by_pid env (natToStr pid)))
          | none => none
        | none => none := by
  intro words
  induction words with
  | nil => rfl
  | cons w ws ih =>
    unfold fuser_scan
    cases hp : parseU32 w with
    | some pid => simp [List.find?_cons, hp]
    | none => simp [List.find?_cons, hp, ih]

/-- Claim C7: `find_process_by_port` queries the port-scoped lsof output
first and, when a line after the header contains `LISTEN`, parses the first
such line with the lsof parser; only when no LISTEN line is yielded does it
fall back to fuser, where the first whitespace token parsing as an unsigned
integer becomes the pid of a record built via the point lookups, and no
parseable token means no result. -/
theorem find_process_by_port_spec (env : Env) (port : Str) :
    find_process_by_port env port =
      match (env.lsof_port_output port).bind
          (fun lines => (lines.drop 1).find? (fun l => hasSub "LISTEN".data l)) with
      | some line => parse_lsof_line env line
      | none =>
        match (env.fuser_output port).bind
            (fun out => (splitWs out).find? (fun w => (parseU32 w).isSome)) with
        | some w =>
          match parseU32 w with
          | some pid =>
            some (create_process_info env port (natToStr pid)
              (get_process_name_by_pid env (natToStr pid))
              (get_command_by_pid env (natToStr pid)))
          | none => none
        | none => none := by
  unfold find_process_by_port fuser_fallback
  cases hL : env.lsof_port_output port with
  | some lines =>
    cases hF : (lines.drop 1).find? (fun l => hasSub "LISTEN".data l) with
    | some line =>
      simp only [List.drop_one] at hF
      simp [hF]
    | none =>
      simp only [List.drop_one] at hF
      cases hU : env.fuser_output port with
      | some out => simp [hF, hU, fuser_scan_char]
      | none => simp [hF, hU]
  | none =>
    cases hU : env.fuser_output port with
    | some out => simp [hU, fuser_scan_char]
    | none => simp [hU]

/-! ## Docker correlator (C2) -/

theorem find_container_lines_char (env : Env) (ip : Str) :
    ∀ lines : List Str,
      find_container_by_ip_lines env ip lines =
        (docker_candidates lines).find?
          (fun cid => decide (get_container_ip env cid = some ip)) := by
  intro lines
  induction lines with
  | nil => rfl
  | cons l ls ih =>
    unfold find_container_by_ip_lines
    cases hh : (splitWs l).head? with
    | none =>
      simp only [docker_candidates, List.filterMap_cons, hh]
      exact ih
    | some cid =>
      simp only [docker_candidates, List.filterMap_cons, hh]
      rw [List.find?_cons]
      cases hip : get_container_ip env cid with
      | some ip2 =>
        by_cases he : ip2 = ip
        · subst he
          simp [hip]
        · simp [hip, he]
          simpa [docker_candidates] using ih
      | none =>
        simp [hip]
        simpa [docker_candidates] using ih

/-- Claim C2: the Docker Correlator returns empty strings whenever the
command does not contain `docker-proxy`; when it does, and `-container-ip `
is followed by an IP terminated by a space, it returns the first listed
container (first whitespace token of a `docker ps` line, untruncated) whose
inspected IP equals the extracted IP, together with its image, and empty
strings when no listed container's IP matches. -/
theorem docker_correlator_spec (env : Env) (command rest ip : Str) :
    (hasSub "docker-proxy".data command = false →
      get_docker_info_from_command env command = ([], [])) ∧
    (hasSub "docker-proxy".data command = true →
      afterSub "-container-ip ".data command = some rest →
      beforeChar ' ' rest = some ip →
      get_docker_info_from_command env command =
        match (docker_candidates (env.docker_ps.getD [])).find?
            (fun cid => decide (get_container_ip env cid = some ip)) with
        | some cid => (cid, get_container_image env cid)
        | none => ([], [])) := by
  constructor
  · intro h
    unfold get_docker_info_from_command
    rw [h]
    simp
  · intro h hA hB
    rcases Option.map_eq_some'.mp hA with ⟨pos, hpos, hdrop⟩
    have hlen : ("-container-ip ".data).length = 14 := rfl
    rw [hlen] at hdrop
    rcases Option.map_eq_some'.mp hB with ⟨sp, hsp, htake⟩
    have hext : extract_container_id_from_docker_proxy env command =
        find_container_by_ip env ip := by
      simp only [extract_container_id_from_docker_proxy, hpos, hdrop, hsp,
        htake]
    have hfc : find_container_by_ip env ip =
        (docker_candidates (env.docker_ps.getD [])).find?
          (fun cid => decide (get_container_ip env cid = some ip)) := by
      unfold find_container_by_ip
      cases hd : env.docker_ps with
      | some lines => simp [hd, find_container_lines_char]
      | none => simp [hd, docker_candidates]
    unfold get_docker_info_from_command
    rw [h, if_pos rfl, hext, hfc]

/-- Environment for the C2 witness: two running containers; only the second
has the IP named by the proxy command. -/
def envC2 : Env :=
  { emptyEnv with
    docker_ps := some ["aaa111 web".data, "bbb222 api".data],
    docker_inspect_ip := fun cid =>
      if cid = "aaa111".data then some "172.17.0.9".data
      else if cid = "bbb222".data then some "172.17.0.2".data
      else none,
    docker_inspect_image := fun cid =>
      if cid = "bbb222".data then some "nginx:latest".data else none }

/-- The spec's docker-proxy sample command. -/
def cmdC2 : Str :=
  ("/usr/bin/docker-proxy -proto tcp -host-ip 0.0.0.0 -host-port 8080 " ++
   "-container-ip 172.17.0.2 -container-port 8080").data

/-- Witness for C2: the proxy command resolves to the container whose
inspected IP matches, and a non-proxy command yields empty fields. -/
theorem docker_correlator_spec_witness :
    get_docker_info_from_command envC2 cmdC2 =
      ("bbb222".data, "nginx:latest".data) ∧
    get_docker_info_from_command envC2 "/usr/bin/node server.js".data =
      ([], []) := by
  constructor
  · have h := (docker_correlator_spec envC2 cmdC2
      "172.17.0.2 -container-port 8080".data "172.17.0.2".data).2
      (by decide) (by decide) (by decide)
    rw [h]
    decide
  · exact (docker_correlator_spec envC2 "/usr/bin/node server.js".data
      [] []).1 (by decide)

/-! ## Panic-freedom of the parsers (C8) -/

theorem idxChk_ok {l : List Str} {i : Nat} (h : i < l.length) :
    idxChk l i = Except.ok (l.getD i []) := by
  unfold idxChk
  rw [List.getElem?_eq_getElem h, List.getD_eq_getElem l [] h]

theorem sliceFromChk_ok {s : Str} {i : Nat} (h : i ≤ s.length) :
    sliceFromChk s i = Except.ok (s.drop i) := by
  unfold sliceFromChk
  rw [if_pos h]

theorem sliceToChk_ok {s : Str} {i : Nat} (h : i ≤ s.length) :
    sliceToChk s i = Except.ok (s.take i) := by
  unfold sliceToChk
  rw [if_pos h]

theorem sliceBetweenChk_ok {s : Str} {i j : Nat} (h1 : i ≤ j)
    (h2 : j ≤ s.length) :
    sliceBetweenChk s i j = Except.ok ((s.drop i).take (j - i)) := by
  unfold sliceBetweenChk
  rw [if_pos ⟨h1, h2⟩]

theorem parse_netstat_line_chk_ok (env : Env) (line : Str) :
    parse_netstat_line_chk env line =
      Except.ok (parse_netstat_line env line) := by
  unfold parse_netstat_line_chk parse_netstat_line
  by_cases h7 : (splitWs line).length ≥ 7
  · have h3 : 3 < (splitWs line).length := by omega
    have h6 : 6 < (splitWs line).length := by omega
    simp only [if_pos h7, idxChk_ok h3, idxChk_ok h6]
    by_cases hdash : (splitWs line).getD 6 [] = "-".data
    · simp only [if_pos hdash]
    · simp only [if_neg hdash]
      by_cases h2 : (splitOnChar '/' ((splitWs line).getD 6 [])).length ≥ 2
      · have ha : 0 < (splitOnChar '/' ((splitWs line).getD 6 [])).length := by
          omega
        have hb : 1 < (splitOnChar '/' ((splitWs line).getD 6 [])).length := by
          omega
        simp only [if_pos h2, idxChk_ok ha, idxChk_ok hb]
      · simp only [if_neg h2]
  · simp only [if_neg h7]

theorem parse_lsof_line_chk_ok (env : Env) (line : Str) :
    parse_lsof_line_chk env line = Except.ok (parse_lsof_line env line) := by
  unfold parse_lsof_line_chk parse_lsof_line
  by_cases h9 : (splitWs line).length ≥ 9
  · have ha : 0 < (splitWs line).length := by omega
    have hb : 1 < (splitWs line).length := by omega
    have hc : 8 < (splitWs line).length := by omega
    simp only [if_pos h9, idxChk_ok ha, idxChk_ok hb, idxChk_ok hc]
  · simp only [if_neg h9]

theorem ss_users_block_chk_ok (env : Env) (port process_info : Str) :
    ss_users_block_chk env port process_info =
      Except.ok (ss_users_block env port process_info) := by
  unfold ss_users_block_chk ss_users_block
  by_cases hu : hasSub "users:".data process_info = true
  · simp only [if_pos hu]
    cases hps : findIdx "pid=".data process_info with
    | none => simp only [afterSub, hps, Option.map_none']
    | some i =>
      have hbi : i + 4 ≤ process_info.length := findIdx_bound hps
      simp only [afterSub, hps, Option.map_some', sliceFromChk_ok hbi,
        show ("pid=".data).length = 4 from rfl]
      cases hpc : findIdx [','] (process_info.drop (i + 4)) with
      | none => simp only [beforeChar, hpc, Option.map_none']
      | some j =>
        have hbj : j ≤ (process_info.drop (i + 4)).length := by
          have := findIdx_bound hpc
          omega
        simp only [beforeChar, hpc, Option.map_some', sliceToChk_ok hbj]
        cases hq1 : findIdx ['"'] process_info with
        | none => simp only [afterSub, hq1, Option.map_none']
        | some k =>
          have hbk : k + 1 ≤ process_info.length := findIdx_bound hq1
          simp only [afterSub, hq1, Option.map_some', sliceFromChk_ok hbk,
            show (['"'] : Str).length = 1 from rfl]
          cases hq2 : findIdx ['"'] (process_info.drop (k + 1)) with
          | none => simp only [beforeChar, hq2, Option.map_none']
          | some m =>
            have hbm : m + 1 ≤ (process_info.drop (k + 1)).length :=
              findIdx_bound hq2
            have hlen : (process_info.drop (k + 1)).length =
                process_info.length - (k + 1) := List.length_drop _ _
            have hcond1 : k + 1 ≤ k + 1 + m := by omega
            have hcond2 : k + 1 + m ≤ process_info.length := by omega
            simp only [beforeChar, hq2, Option.map_some',
              sliceBetweenChk_ok hcond1 hcond2, Nat.add_sub_cancel_left]
  · simp only [if_neg hu]

theorem parse_ss_line_chk_ok (env : Env) (line : Str) :
    parse_ss_line_chk env line = Except.ok (parse_ss_line env line) := by
  unfold parse_ss_line_chk parse_ss_line
  by_cases h4 : (splitWs line).length ≥ 4
  · have h3 : 3 < (splitWs line).length := by omega
    simp only [if_pos h4, idxChk_ok h3]
    cases hcp : rfindCharIdx ':' ((splitWs line).getD 3 []) with
    | none => simp only [afterLastChar, hcp, Option.map_none']
    | some cp =>
      have hbc : cp + 1 ≤ ((splitWs line).getD 3 []).length := by
        have := rfindCharIdx_bound hcp
        omega
      simp only [afterLastChar, hcp, Option.map_some', sliceFromChk_ok hbc]
      by_cases h6 : (splitWs line).length ≥ 6
      · have h5 : 5 < (splitWs line).length := by omega
        simp only [if_pos h6, idxChk_ok h5, ss_users_block_chk_ok]
        cases hv : ss_users_block env (((splitWs line).getD 3 []).drop (cp + 1))
            ((splitWs line).getD 5 []) with
        | some r => simp only [hv]
        | none =>
          simp only [hv]
          cases find_process_by_port env
              (((splitWs line).getD 3 []).drop (cp + 1)) with
          | some r => rfl
          | none => rfl
      · simp only [if_neg h6]
        cases find_process_by_port env
            (((splitWs line).getD 3 []).drop (cp + 1)) with
        | some r => rfl
        | none => rfl
  · simp only [if_neg h4]

theorem extract_container_id_chk_ok (env : Env) (command : Str) :
    extract_container_id_chk env command =
      Except.ok (extract_container_id_from_docker_proxy env command) := by
  unfold extract_container_id_chk extract_container_id_from_docker_proxy
  cases hps : findIdx "-container-ip ".data command with
  | none => rfl
  | some pos =>
    have hbp : pos + 14 ≤ command.length := findIdx_bound hps
    simp only [hps, sliceFromChk_ok hbp]
    cases hsp : findIdx [' '] (command.drop (pos + 14)) with
    | none => rfl
    | some sp =>
      have hbs : sp ≤ (command.drop (pos + 14)).length := by
        have := findIdx_bound hsp
        omega
      simp only [hsp, sliceToChk_ok hbs]

/-- Claim C8: the line parsers and the docker-proxy extraction function are
total and panic-free on arbitrary input: their checked variants — in which
every slice and column access derived from find/rfind plus fixed offsets is
bounds-checked, and a violation would surface as `Except.error` — return
`Except.ok` with exactly the plain function's result, for every input. -/
theorem parsers_panic_free (env : Env) (line command : Str) :
    parse_ss_line_chk env line = Except.ok (parse_ss_line env line) ∧
    parse_netstat_line_chk env line =
      Except.ok (parse_netstat_line env line) ∧
    parse_lsof_line_chk env line = Except.ok (parse_lsof_line env line) ∧
    extract_container_id_chk env command =
      Except.ok (extract_container_id_from_docker_proxy env command) :=
  ⟨parse_ss_line_chk_ok env line, parse_netstat_line_chk_ok env line,
   parse_lsof_line_chk_ok env line, extract_container_id_chk_ok env command⟩

/-! ## Extraction from a well-formed users block (C5) -/

theorem drop_append_len :
    ∀ (a b : Str) (k : Nat), (a ++ b).drop (a.length + k) = b.drop k := by
  intro a
  induction a with
  | nil => intro b k; simp
  | cons x xs ih =>
    intro b k
    rw [List.cons_append, List.length_cons, Nat.add_right_comm,
      List.drop_succ_cons, ih]

theorem findIdx_char_at :
    ∀ (a : Str) (c : Char) (b : Str), c ∉ a →
      findIdx [c] (a ++ c :: b) = some a.length := by
  intro a
  induction a with
  | nil =>
    intro c b _
    have hl : leadsWith [c] (c :: b) = true := by simp [leadsWith]
    rw [List.nil_append, findIdx, if_pos hl]
    rfl
  | cons x xs ih =>
    intro c b h
    have hx : x ≠ c := fun he => h (by simp [he])
    have hnl : ¬ leadsWith [c] (x :: (xs ++ c :: b)) = true := by
      intro hlw
      simp only [leadsWith, Bool.and_true, beq_iff_eq] at hlw
      exact hx hlw.symm
    rw [List.cons_append]
    unfold findIdx
    rw [if_neg hnl, ih c b (fun hm => h (List.mem_cons_of_mem _ hm))]
    simp

theorem findIdx_pid_at :
    ∀ (a b : Str), '=' ∉ a →
      findIdx "pid=".data (a ++ 'p' :: 'i' :: 'd' :: '=' :: b) =
        some a.length := by
  intro a
  induction a with
  | nil =>
    intro b _
    have hl : leadsWith "pid=".data ('p' :: 'i' :: 'd' :: '=' :: b) = true :=
      rfl
    rw [List.nil_append, findIdx, if_pos hl]
    rfl
  | cons x xs ih =>
    intro b h
    have hP : "pid=".data = ['p', 'i', 'd', '='] := rfl
    have hnl : ¬ leadsWith "pid=".data
        (x :: (xs ++ 'p' :: 'i' :: 'd' :: '=' :: b)) = true := by
      rw [hP]
      intro hlw
      rcases xs with _ | ⟨x1, _ | ⟨x2, _ | ⟨x3, t⟩⟩⟩
      · simp only [List.nil_append, leadsWith, Bool.and_eq_true,
          beq_iff_eq] at hlw
        exact absurd hlw.2.1 (by decide)
      · simp only [List.cons_append, List.nil_append, leadsWith,
          Bool.and_eq_true, beq_iff_eq] at hlw
        exact absurd hlw.2.2.1 (by decide)
      · simp only [List.cons_append, List.nil_append, leadsWith,
          Bool.and_eq_true, beq_iff_eq] at hlw
        exact absurd hlw.2.2.2.1 (by decide)
      · simp only [List.cons_append, leadsWith, Bool.and_eq_true,
          beq_iff_eq] at hlw
        exact h (by rw [hlw.2.2.2.1]; simp)
    rw [List.cons_append]
    unfold findIdx
    rw [if_neg hnl, ih b (fun hm => h (List.mem_cons_of_mem _ hm))]
    simp

theorem ss_users_block_wellformed (env : Env) (port name pid fd : Str)
    (hq : '"' ∉ name) (he : '=' ∉ name) (hp : ',' ∉ pid) :
    ss_users_block env port (usersBlock name pid fd) =
      some (create_process_info env port pid name
        (get_command_by_pid env pid)) := by
  have hpid : afterSub "pid=".data (usersBlock name pid fd) =
      some (pid ++ (',' :: 'f' :: 'd' :: '=' :: (fd ++ "))".data))) := by
    have hA : '=' ∉ ("users:((\"".data ++ (name ++ ['"', ','])) := by
      intro hm
      rcases List.mem_append.mp hm with h1 | h2
      · exact absurd h1 (by decide)
      · rcases List.mem_append.mp h2 with h3 | h4
        · exact he h3
        · exact absurd h4 (by decide)
    have hsh : usersBlock name pid fd =
        ("users:((\"".data ++ (name ++ ['"', ','])) ++
          ('p' :: 'i' :: 'd' :: '=' ::
            (pid ++ (',' :: 'f' :: 'd' :: '=' :: (fd ++ "))".data)))) := by
      simp only [usersBlock, List.append_assoc]
      rfl
    unfold afterSub
    rw [hsh, findIdx_pid_at _ _ hA, Option.map_some',
      show ("pid=".data).length = 4 from rfl, drop_append_len]
    rfl
  have hpidcomma : beforeChar ','
      (pid ++ (',' :: 'f' :: 'd' :: '=' :: (fd ++ "))".data))) = some pid := by
    unfold beforeChar
    rw [findIdx_char_at _ _ _ hp, Option.map_some', List.take_left]
  have hquote : afterSub ['"'] (usersBlock name pid fd) =
      some (name ++ ('"' :: ',' :: 'p' :: 'i' :: 'd' :: '=' ::
        (pid ++ (',' :: 'f' :: 'd' :: '=' :: (fd ++ "))".data))))) := by
    have hsh : usersBlock name pid fd =
        "users:((".data ++ '"' ::
          (name ++ ('"' :: ',' :: 'p' :: 'i' :: 'd' :: '=' ::
            (pid ++ (',' :: 'f' :: 'd' :: '=' :: (fd ++ "))".data))))) := by
      simp only [usersBlock, List.append_assoc]
      rfl
    unfold afterSub
    rw [hsh, findIdx_char_at _ _ _ (by decide), Option.map_some']
    rfl
  have hname : beforeChar '"'
      (name ++ ('"' :: ',' :: 'p' :: 'i' :: 'd' :: '=' ::
        (pid ++ (',' :: 'f' :: 'd' :: '=' :: (fd ++ "))".data))))) =
      some name := by
    unfold beforeChar
    rw [findIdx_char_at _ _ _ hq, Option.map_some', List.take_left]
  unfold ss_users_block
  rw [if_pos (show hasSub "users:".data (usersBlock name pid fd) = true
    from rfl)]
  simp only [hpid, hpidcomma, hquote, hname]

/-- Claim C5: for an ss line whose process column is a well-formed
`users:(("name",pid=NNN,fd=K))` block, the parser extracts exactly the pid
between `pid=` and the next comma and exactly the first double-quoted
substring as the process name — the components a manual regex over
`pid=NNN` and the first quoted string would yield.  The side conditions
(the name contains no quote and no `=`, the pid contains no comma) are what
well-formedness of the block means. -/
theorem parse_ss_users_spec (env : Env) (line port name pid fd : Str)
    (h6 : (splitWs line).length ≥ 6)
    (hport : afterLastChar ':' ((splitWs line).getD 3 []) = some port)
    (hcol : (splitWs line).getD 5 [] = usersBlock name pid fd)
    (hq : '"' ∉ name) (he : '=' ∉ name) (hp : ',' ∉ pid) :
    ∃ r, parse_ss_line env line = some r ∧ r.pid = pid ∧
      r.process_name = name := by
  have h4 : (splitWs line).length ≥ 4 := by omega
  refine ⟨create_process_info env port pid name (get_command_by_pid env pid),
    ?_, rfl, rfl⟩
  unfold parse_ss_line
  simp only [if_pos h4, hport, if_pos h6, hcol,
    ss_users_block_wellformed env port name pid fd hq he hp]

/-- Witness for C5 at a concrete ss line whose users block names pid 12345
and process name node. -/
theorem parse_ss_users_spec_witness :
    ∃ r, parse_ss_line emptyEnv
        "LISTEN 0 128 0.0.0.0:8080 0.0.0.0:* users:((\"node\",pid=12345,fd=10))".data
        = some r ∧
      r.pid = "12345".data ∧ r.process_name = "node".data :=
  parse_ss_users_spec emptyEnv
    "LISTEN 0 128 0.0.0.0:8080 0.0.0.0:* users:((\"node\",pid=12345,fd=10))".data
    "8080".data "node".data "12345".data "10".data
    (by decide) (by decide) (by decide) (by decide) (by decide) (by decide)
